import Mathlib

/-!
Shallow embedding of the goschemaless repository: the HL7 path parser
(internal/parseHL7Path.go) and the message abstraction engine (package hl7,
function AbstractHL7).  Go strings are modelled as lists of characters,
Go int as Int, a Go (T, error) return as Except over the error message
string, and a Go runtime panic (index out of range) as the none case of an
outer Option.
-/

/-- A Go string, modelled as its list of characters. -/
abbrev Str := List Char

/-- Characters of a Lean string literal, used to write Go string constants. -/
def chars (s : String) : Str := s.data

/-- The HL7Path struct of internal/parseHL7Path.go: segment name plus five
int fields. -/
structure HL7Path where
  Segment : Str
  SegmentIndex : Int
  Field : Int
  RepetitionIndex : Int
  Component : Int
  Subcomponent : Int
deriving DecidableEq

/-- The Go zero value HL7Path{}. -/
def HL7Path.zero : HL7Path := ⟨[], 0, 0, 0, 0, 0⟩

/-- func (p HL7Path) Validate() error, translated check for check in source
order.  Go's early-return chain becomes an if-else chain; some error (as its
message string) models a non-nil error return. -/
def HL7Path.Validate (p : HL7Path) : Option Str :=
  if p.Segment = [] then
    if p.SegmentIndex ≠ 0 ∨ p.Field ≠ 0 ∨ p.RepetitionIndex ≠ 0 ∨
        p.Component ≠ 0 ∨ p.Subcomponent ≠ 0 then
      some (chars "if Segment is empty, the rest of the path must be empty or 0")
    else none
  else if p.Segment = chars "MSH" ∧ p.SegmentIndex ≠ 1 then
    some (chars "if Segment is MSH, SegmentIndex must be 1")
  else if p.Segment = chars "MSH" ∧ p.Field = 1 ∧
      (p.Component ≠ 0 ∨ p.Subcomponent ≠ 0) then
    some (chars "if Segment is MSH and Field is 1, the rest of the path must be empty or 0")
  else if p.Field ≠ 0 ∧ p.Segment = [] then
    some (chars "if Field is set, Segment must be set")
  else if p.RepetitionIndex ≠ 0 ∧ p.Field = 0 then
    some (chars "if RepetitionIndex is set, Field must be set")
  else if p.Field ≠ 0 ∧ p.RepetitionIndex = 0 then
    some (chars "if Field is set, RepetitionIndex must be at least 1")
  else if p.Component ≠ 0 ∧ p.Field = 0 then
    some (chars "if Component is set, Field must be set")
  else if p.Subcomponent ≠ 0 ∧ p.Component = 0 then
    some (chars "if Subcomponent is set, Component must be set")
  else none

/-! ## Path grammar (func ParsePath)

ParsePath matches its input against the anchored Go regexp

  ^([A-Z][A-Z0-9]{2})(?:\[(\d+)\])?(?:[-\.](\d+)(?:\[(\d+)\])?(?:[-\.](\d+)(?:[-\.](\d+))?)?)?$

The regexp is deterministic: every quantified group starts with a character
(`[`, `-`, `.`, or a digit) that no later alternative at the same point can
consume, and every `\d+` is followed by a non-digit requirement, so maximal
munch and first-set dispatch reproduce the regexp's match exactly.  We embed
it as the recursive-descent recogniser below, returning the six capture
groups ("" for a group that did not participate). -/

/-- Character class [A-Z]. -/
def isUpper (c : Char) : Bool := 'A' ≤ c ∧ c ≤ 'Z'

/-- Character class [0-9]. -/
def isDigitCh (c : Char) : Bool := '0' ≤ c ∧ c ≤ '9'

/-- Character class [A-Z0-9]. -/
def isUpperOrDigit (c : Char) : Bool := isUpper c || isDigitCh c

/-- The separator class [-\.] of the path grammar. -/
def isSep (c : Char) : Bool := c = '-' ∨ c = '.'

/-- Maximal-munch \d+ : the longest digit prefix and the rest. -/
def readDigits : Str → Str × Str
  | [] => ([], [])
  | c :: cs =>
    if isDigitCh c then
      let (ds, rest) := readDigits cs
      (c :: ds, rest)
    else ([], c :: cs)

/-- The optional bracketed index group (?:\[(\d+)\])? .  none models a failed
overall match (a '[' is present but the group cannot complete, and no later
part of the pattern can consume a '['); some ([], s) models an absent group. -/
def matchBracket : Str → Option (Str × Str)
  | '[' :: rest =>
    let (ds, rest2) := readDigits rest
    if ds = [] then none
    else
      match rest2 with
      | ']' :: rest3 => some (ds, rest3)
      | _ => none
  | s => some (([] : Str), s)

/-- The six capture groups of the path regexp, in source order. -/
structure PathCaps where
  segment : Str
  segmentIndex : Str
  field : Str
  repetitionIndex : Str
  component : Str
  subcomponent : Str
deriving DecidableEq

/-- Everything after the 3-character segment name:
(?:\[(\d+)\])?(?:[-\.](\d+)(?:\[(\d+)\])?(?:[-\.](\d+)(?:[-\.](\d+))?)?)?$ .
Returns (segmentIndex, field, repetitionIndex, component, subcomponent). -/
def matchAfterSegment (s : Str) : Option (Str × Str × Str × Str × Str) :=
  match matchBracket s with
  | none => none
  | some (segIdx, rest1) =>
    match rest1 with
    | [] => some (segIdx, [], [], [], [])
    | c :: rest2 =>
      if isSep c then
        let (fieldDs, rest3) := readDigits rest2
        if fieldDs = [] then none
        else
          match matchBracket rest3 with
          | none => none
          | some (repDs, rest4) =>
            match rest4 with
            | [] => some (segIdx, fieldDs, repDs, [], [])
            | c2 :: rest5 =>
              if isSep c2 then
                let (compDs, rest6) := readDigits rest5
                if compDs = [] then none
                else
                  match rest6 with
                  | [] => some (segIdx, fieldDs, repDs, compDs, [])
                  | c3 :: rest7 =>
                    if isSep c3 then
                      let (subDs, rest8) := readDigits rest7
                      if subDs = [] then none
                      else if rest8 = [] then
                        some (segIdx, fieldDs, repDs, compDs, subDs)
                      else none
                    else none
              else none
      else none

/-- FindStringSubmatch of the anchored path regexp: none models a failed
match, some gives the capture groups. -/
def regexMatch (s : Str) : Option PathCaps :=
  match s with
  | c0 :: c1 :: c2 :: rest =>
    if isUpper c0 && isUpperOrDigit c1 && isUpperOrDigit c2 then
      match matchAfterSegment rest with
      | none => none
      | some (si, f, ri, co, su) => some ⟨[c0, c1, c2], si, f, ri, co, su⟩
    else none
  | _ => none

/-- The per-character loop of func parseSegmentNameOrError over the
characters after the first: first offending character's message is
returned. -/
def segNameCheckRest : Str → Option Str
  | [] => none
  | c :: cs =>
    if ¬ isUpperOrDigit c then
      some (chars "segment name must be uppercase alphanumeric")
    else segNameCheckRest cs

/-- func parseSegmentNameOrError(s string) (string, error). -/
def parseSegmentNameOrError (s : Str) : Except Str Str :=
  if s.length ≠ 3 then .error (chars "segment name must be 3 characters")
  else
    match s with
    | [] => .ok s
    | c :: cs =>
      if ¬ isUpper c then
        .error (chars "segment name must begin with an uppercase letter")
      else
        match segNameCheckRest cs with
        | some e => .error e
        | none => .ok s

/-- Numeric value of a decimal digit string. -/
def digitsToNat (s : Str) : Nat :=
  s.foldl (fun a c => a * 10 + (c.toNat - '0'.toNat)) 0

/-- func parseIntOrDefault(s string, defaultVal int) int.  fmt.Sscanf with
%d on a decimal digit string (the only non-empty inputs ParsePath can pass:
\d+ captures) succeeds exactly when the value fits in a 64-bit int; on empty
input or conversion failure (overflow) the default is returned. -/
def parseIntOrDefault (s : Str) (defaultVal : Int) : Int :=
  if s = [] then defaultVal
  else if s.all isDigitCh then
    let n := digitsToNat s
    if n ≤ 9223372036854775807 then (n : Int) else defaultVal
  else defaultVal

/-- func ParsePath(path string) (HL7Path, error).  The capture-group loop of
the source fills fields left to right; repetitionIndex's default depends on
the already-assigned Field, exactly as in the source. -/
def ParsePath (path : Str) : Except Str HL7Path :=
  if path = [] then .ok HL7Path.zero
  else
    match regexMatch path with
    | none => .error (chars "invalid path format")
    | some caps =>
      match parseSegmentNameOrError caps.segment with
      | .error e => .error e
      | .ok seg =>
        let segmentIndex := parseIntOrDefault caps.segmentIndex 1
        let field := parseIntOrDefault caps.field 0
        let repetitionIndex :=
          parseIntOrDefault caps.repetitionIndex (if field > 0 then 1 else 0)
        let component := parseIntOrDefault caps.component 0
        let subcomponent := parseIntOrDefault caps.subcomponent 0
        .ok ⟨seg, segmentIndex, field, repetitionIndex, component, subcomponent⟩

/-! ## Message abstraction (package hl7, func AbstractHL7) -/

/-- Go slice indexing l[i] with an int index: none models the runtime panic
raised when i is negative or not below len(l). -/
def goIndex {α : Type} (l : List α) (i : Int) : Option α :=
  if 0 ≤ i ∧ i < (l.length : Int) then l.get? i.toNat else none

/-- strings.Split(s, string(sep)) for a one-character separator: the n+1
pieces around the n occurrences of sep; [""] on the empty string. -/
def splitOnChar (sep : Char) : Str → List Str
  | [] => [[]]
  | c :: cs =>
    if c = sep then [] :: splitOnChar sep cs
    else
      match splitOnChar sep cs with
      | [] => [[c]]
      | t :: ts => (c :: t) :: ts

/-- Recursion core of strings.ReplaceAll, structurally recursive on a fuel
that the wrapper instantiates with the string length (each step consumes at
least one character, so the fuel never runs out on the wrapper's call). -/
def replaceAllAux (old nw : Str) : Nat → Str → Str
  | 0, s => s
  | _ + 1, [] => []
  | fuel + 1, c :: cs =>
    if old ≠ [] ∧ old.isPrefixOf (c :: cs) then
      nw ++ replaceAllAux old nw fuel (cs.drop (old.length - 1))
    else c :: replaceAllAux old nw fuel cs

/-- strings.ReplaceAll(s, old, nw) for a non-empty old: left-to-right
non-overlapping replacement, never rescanning replaced text. -/
def replaceAll (old nw s : Str) : Str := replaceAllAux old nw s.length s

/-- Recursion core of strings.Split for a non-empty separator, structurally
recursive on a fuel that the wrapper instantiates with the string length. -/
def splitOnStrAux (sep : Str) : Nat → Str → List Str
  | 0, s => [s]
  | _ + 1, [] => [[]]
  | fuel + 1, c :: cs =>
    if sep ≠ [] ∧ sep.isPrefixOf (c :: cs) then
      [] :: splitOnStrAux sep fuel (cs.drop (sep.length - 1))
    else
      match splitOnStrAux sep fuel cs with
      | [] => [[c]]
      | t :: ts => (c :: t) :: ts

/-- strings.Split(s, sep) for a non-empty possibly multi-character
separator. -/
def splitOnStr (sep s : Str) : List Str := splitOnStrAux sep s.length s

/-- Stable insertion into a list kept sorted by descending length: the new
element goes after every element of length ≥ its own. -/
def insertByLen (x : Str) : List Str → List Str
  | [] => [x]
  | y :: ys => if y.length < x.length then x :: y :: ys else y :: insertByLen x ys

/-- slices.SortFunc(separators, func(a, b) int { return len(b) - len(a) }):
descending length.  On slices shorter than 12 elements Go's pdqsort runs a
plain insertion sort, which never swaps comparator-equal elements, so the
result is the stable descending-length order modelled here. -/
def sortByLenDesc (l : List Str) : List Str :=
  l.foldl (fun acc x => insertByLen x acc) []

/-- func splitByAnyOf(s string, separators []string) []string: sort the
separators by descending length, rewrite every later separator into the
first, split on the first. -/
def splitByAnyOf (s : Str) (separators : List Str) : List Str :=
  if separators = [] then [s]
  else
    match sortByLenDesc separators with
    | [] => [s]
    | first :: rest =>
      splitOnStr first (rest.foldl (fun acc sep => replaceAll sep first acc) s)

/-- The duplicate check of AbstractHL7's seen-map loop: true exactly when
some separator occurs twice in the list. -/
def hasDup : List Char → Bool
  | [] => false
  | c :: cs => cs.contains c || hasDup cs

/-- The MSH reindexing step of AbstractHL7:
fields = append(fields[:1], append([]string{string(fieldSeparator)}, fields[1:]...)...)
performed only for segment MSH. -/
def mshFieldAdjust (p : HL7Path) (fieldSeparator : Char) (fields : List Str) : List Str :=
  if p.Segment = chars "MSH" then fields.take 1 ++ [fieldSeparator] :: fields.drop 1
  else fields

/-- The repetition split of AbstractHL7: split on the repetition separator
unless the path addresses MSH field 2, which is never repetition-split. -/
def fieldRepetitions (p : HL7Path) (repetitionSeparator : Char) (field : Str) : List Str :=
  if ¬ (p.Segment = chars "MSH" ∧ p.Field = 2) then splitOnChar repetitionSeparator field
  else [field]

/-- The body AbstractHL7 runs once the target segment is found: field,
repetition, component and subcomponent extraction, in source order, with
every out-of-range address answered by ("", nil), modelled some (.ok []). -/
def extractFromSegment (p : HL7Path)
    (fieldSeparator componentSeparator repetitionSeparator subcomponentSeparator : Char)
    (segment : Str) : Option (Except Str Str) :=
  if p.Field = 0 then some (.ok segment)
  else if ((mshFieldAdjust p fieldSeparator (splitOnChar fieldSeparator segment)).length : Int) ≤
      p.Field then some (.ok [])
  else
    match goIndex (mshFieldAdjust p fieldSeparator (splitOnChar fieldSeparator segment))
        p.Field with
    | none => none
    | some field =>
      if ((fieldRepetitions p repetitionSeparator field).length : Int) < p.RepetitionIndex then
        some (.ok [])
      else
        match goIndex (fieldRepetitions p repetitionSeparator field)
            (p.RepetitionIndex - 1) with
        | none => none
        | some repetition =>
          if p.Component = 0 then some (.ok repetition)
          else if ((splitOnChar componentSeparator repetition).length : Int) < p.Component then
            some (.ok [])
          else
            match goIndex (splitOnChar componentSeparator repetition) (p.Component - 1) with
            | none => none
            | some component =>
              if p.Subcomponent = 0 then some (.ok component)
              else if ((splitOnChar subcomponentSeparator component).length : Int) <
                  p.Subcomponent then some (.ok [])
              else
                match goIndex (splitOnChar subcomponentSeparator component)
                    (p.Subcomponent - 1) with
                | none => none
                | some sub => some (.ok sub)

/-- The segment loop of AbstractHL7: scan in order, count segments whose
text starts with path.Segment, extract from the one at which the count
reaches path.SegmentIndex; ("", nil) when the scan completes. -/
def scanSegments (p : HL7Path)
    (fieldSeparator componentSeparator repetitionSeparator subcomponentSeparator : Char) :
    Int → List Str → Option (Except Str Str)
  | _, [] => some (.ok [])
  | segmentCount, segment :: rest =>
    if p.Segment.isPrefixOf segment then
      if segmentCount + 1 = p.SegmentIndex then
        extractFromSegment p fieldSeparator componentSeparator repetitionSeparator
          subcomponentSeparator segment
      else
        scanSegments p fieldSeparator componentSeparator repetitionSeparator
          subcomponentSeparator (segmentCount + 1) rest
    else
      scanSegments p fieldSeparator componentSeparator repetitionSeparator
        subcomponentSeparator segmentCount rest

/-- func AbstractHL7(message string, path HL7Path) (string, error), check
for check in source order.  The 7-element match on the delimiter block is
the pair of constant-index reads message[3:10][k]; its wildcard arm (a
too-short slice, impossible past the length check) models the panic. -/
def AbstractHL7 (message : Str) (path : HL7Path) : Option (Except Str Str) :=
  match path.Validate with
  | some e => some (.error e)
  | none =>
    if path = HL7Path.zero then some (.ok message)
    else if message.length < 3 ∨ message.take 3 ≠ chars "MSH" then
      some (.error (chars "invalid HL7 message: must begin with MSH"))
    else if message.length < 10 then
      some (.error (chars "invalid HL7 message: message too short to contain separators and meaningful data"))
    else
      match (message.drop 3).take 7 with
      | [fieldSeparator, componentSeparator, repetitionSeparator, escapeCharacter,
         subcomponentSeparator, sep5, sep6] =>
        if path.Segment = chars "MSH" ∧ path.Field = 1 then some (.ok [fieldSeparator])
        else if componentSeparator = fieldSeparator then
          some (.error (chars "missing component separator"))
        else if repetitionSeparator = fieldSeparator then
          some (.error (chars "missing repetition separator"))
        else if escapeCharacter = fieldSeparator then
          some (.error (chars "missing escape character"))
        else if subcomponentSeparator = fieldSeparator then
          some (.error (chars "missing subcomponent separator"))
        else if sep5 ≠ fieldSeparator ∧ sep6 ≠ fieldSeparator then
          some (.error (chars "unexpected extra separators"))
        else if hasDup [fieldSeparator, componentSeparator, repetitionSeparator,
            escapeCharacter, subcomponentSeparator] then
          some (.error (chars "separators must be unique"))
        else
          scanSegments path fieldSeparator componentSeparator repetitionSeparator
            subcomponentSeparator 0
            (splitByAnyOf message [chars "\r\n", chars "\r", chars "\n"])
      | _ => none

/-- Header segment of the test-suite message, used as a concrete example. -/
def exampleHeaderMessage : Str :=
  chars "MSH|^~\\&|HIS|RIH|EKG|EKG|20060529090131||ADT^A01|MSG00001|P|2.5"

/-! ## Helper lemmas -/

theorem goIndex_get {α : Type} (l : List α) (i : Int) (h0 : 0 ≤ i)
    (h1 : i < (l.length : Int)) : ∃ a, goIndex l i = some a := by
  have ht : i.toNat < l.length := by omega
  refine ⟨l.get ⟨i.toNat, ht⟩, ?_⟩
  unfold goIndex
  rw [if_pos ⟨h0, h1⟩]
  exact List.get?_eq_get ht

theorem Validate_none_rep (p : HL7Path) (h : p.Validate = none)
    (hf : p.Field ≠ 0) : p.RepetitionIndex ≠ 0 := by
  unfold HL7Path.Validate at h
  split_ifs at h <;> simp_all

theorem exists_seven (l : List Char) (h : l.length = 7) :
    ∃ a b c d e f g, l = [a, b, c, d, e, f, g] := by
  rcases l with _ | ⟨a, _ | ⟨b, _ | ⟨c, _ | ⟨d, _ | ⟨e, _ | ⟨f, _ | ⟨g, _ | ⟨x, t⟩⟩⟩⟩⟩⟩⟩⟩ <;>
    simp_all

theorem extract_isSome (p : HL7Path) (fs cs rs ss : Char) (seg : Str)
    (hF : 0 ≤ p.Field) (hR : 0 ≤ p.RepetitionIndex) (hC : 0 ≤ p.Component)
    (hS : 0 ≤ p.Subcomponent) (hFR : p.Field ≠ 0 → p.RepetitionIndex ≠ 0) :
    extractFromSegment p fs cs rs ss seg ≠ none := by
  unfold extractFromSegment
  by_cases hf0 : p.Field = 0
  · simp [hf0]
  rw [if_neg hf0]
  by_cases hflen : ((mshFieldAdjust p fs (splitOnChar fs seg)).length : Int) ≤ p.Field
  · simp [hflen]
  rw [if_neg hflen]
  obtain ⟨field, hfield⟩ :=
    goIndex_get (mshFieldAdjust p fs (splitOnChar fs seg)) p.Field hF (by omega)
  simp only [hfield]
  have hR1 : 1 ≤ p.RepetitionIndex := by
    have := hFR hf0
    omega
  by_cases hrlen : ((fieldRepetitions p rs field).length : Int) < p.RepetitionIndex
  · simp [hrlen]
  rw [if_neg hrlen]
  obtain ⟨repetition, hrep⟩ :=
    goIndex_get (fieldRepetitions p rs field) (p.RepetitionIndex - 1) (by omega) (by omega)
  simp only [hrep]
  by_cases hc0 : p.Component = 0
  · simp [hc0]
  rw [if_neg hc0]
  by_cases hclen : ((splitOnChar cs repetition).length : Int) < p.Component
  · simp [hclen]
  rw [if_neg hclen]
  obtain ⟨component, hcomp⟩ :=
    goIndex_get (splitOnChar cs repetition) (p.Component - 1) (by omega) (by omega)
  simp only [hcomp]
  by_cases hs0 : p.Subcomponent = 0
  · simp [hs0]
  rw [if_neg hs0]
  by_cases hslen : ((splitOnChar ss component).length : Int) < p.Subcomponent
  · simp [hslen]
  rw [if_neg hslen]
  obtain ⟨sub, hsub⟩ :=
    goIndex_get (splitOnChar ss component) (p.Subcomponent - 1) (by omega) (by omega)
  simp [hsub]

theorem scan_isSome (p : HL7Path) (fs cs rs ss : Char)
    (hF : 0 ≤ p.Field) (hR : 0 ≤ p.RepetitionIndex) (hC : 0 ≤ p.Component)
    (hS : 0 ≤ p.Subcomponent) (hFR : p.Field ≠ 0 → p.RepetitionIndex ≠ 0) :
    ∀ (segs : List Str) (count : Int), scanSegments p fs cs rs ss count segs ≠ none := by
  intro segs
  induction segs with
  | nil => intro count; simp [scanSegments]
  | cons sg rest ih =>
    intro count
    unfold scanSegments
    by_cases hp : p.Segment.isPrefixOf sg
    · rw [if_pos hp]
      by_cases hcnt : count + 1 = p.SegmentIndex
      · rw [if_pos hcnt]
        exact extract_isSome p fs cs rs ss sg hF hR hC hS hFR
      · rw [if_neg hcnt]
        exact ih _
    · rw [if_neg hp]
      exact ih _

theorem scan_miss (p : HL7Path) (fs cs rs ss : Char) :
    ∀ (segs : List Str) (count : Int),
      (p.SegmentIndex ≤ count ∨
        count + (((segs.filter p.Segment.isPrefixOf).length : Int)) <
          p.SegmentIndex) →
      scanSegments p fs cs rs ss count segs = some (.ok []) := by
  intro segs
  induction segs with
  | nil => intro count _; rfl
  | cons sg rest ih =>
    intro count h
    unfold scanSegments
    by_cases hp : p.Segment.isPrefixOf sg
    · rw [if_pos hp]
      rw [List.filter_cons_of_pos hp] at h
      have hne : ¬ (count + 1 = p.SegmentIndex) := by
        rcases h with h | h
        · omega
        · simp only [List.length_cons] at h
          push_cast at h
          omega
      rw [if_neg hne]
      apply ih
      rcases h with h | h
      · left; omega
      · right
        simp only [List.length_cons] at h
        push_cast at h ⊢
        omega
    · rw [if_neg hp]
      rw [List.filter_cons_of_neg hp] at h
      exact ih _ h

theorem scan_nth (p : HL7Path) (fs cs rs ss : Char) :
    ∀ (segs : List Str) (count : Int), count < p.SegmentIndex →
      scanSegments p fs cs rs ss count segs =
        (match (segs.filter p.Segment.isPrefixOf).get?
            (p.SegmentIndex - count - 1).toNat with
         | none => some (.ok [])
         | some sg => extractFromSegment p fs cs rs ss sg) := by
  intro segs
  induction segs with
  | nil => intro count _; simp [scanSegments]
  | cons sg rest ih =>
    intro count hlt
    unfold scanSegments
    by_cases hp : p.Segment.isPrefixOf sg
    · rw [if_pos hp, List.filter_cons_of_pos hp]
      by_cases hcnt : count + 1 = p.SegmentIndex
      · rw [if_pos hcnt]
        have h0 : (p.SegmentIndex - count - 1).toNat = 0 := by omega
        rw [h0]
        simp
      · rw [if_neg hcnt]
        rw [ih (count + 1) (by omega)]
        have hstep : (p.SegmentIndex - count - 1).toNat =
            (p.SegmentIndex - (count + 1) - 1).toNat + 1 := by omega
        rw [hstep]
        simp
    · rw [if_neg hp, List.filter_cons_of_neg hp]
      exact ih count hlt

/-! ## Claim theorems -/

/-- C2: AbstractHL7 applied to the zero-value Path returns the message
unchanged with no error, for every message string whatsoever — the zero-path
shortcut fires before any header or delimiter check, so the identity holds
even for messages that do not begin with MSH or are shorter than 10
characters. -/
theorem zero_path_identity (m : Str) :
    AbstractHL7 m HL7Path.zero = some (.ok m) := rfl

/-- C4: on a message whose header segment is MSH|^~\&|HIS|RIH|..., path
MSH.1 yields "|", MSH.2 yields "^~\&" (returned whole although it contains
the repetition separator, because MSH field 2 is never repetition-split) and
MSH.3 yields "HIS"; moreover for an MSH path the field list is reindexed by
inserting a synthetic field equal to the field separator at index 1, and for
an MSH field-2 path the repetition list is the unsplit field itself. -/
theorem msh_field_examples :
    ParsePath (chars "MSH.1") = .ok ⟨chars "MSH", 1, 1, 1, 0, 0⟩
  ∧ AbstractHL7 exampleHeaderMessage ⟨chars "MSH", 1, 1, 1, 0, 0⟩ = some (.ok (chars "|"))
  ∧ ParsePath (chars "MSH.2") = .ok ⟨chars "MSH", 1, 2, 1, 0, 0⟩
  ∧ AbstractHL7 exampleHeaderMessage ⟨chars "MSH", 1, 2, 1, 0, 0⟩ = some (.ok (chars "^~\\&"))
  ∧ ParsePath (chars "MSH.3") = .ok ⟨chars "MSH", 1, 3, 1, 0, 0⟩
  ∧ AbstractHL7 exampleHeaderMessage ⟨chars "MSH", 1, 3, 1, 0, 0⟩ = some (.ok (chars "HIS"))
  ∧ (∀ (fs : Char) (fields : List Str),
      mshFieldAdjust ⟨chars "MSH", 1, 2, 1, 0, 0⟩ fs fields =
        fields.take 1 ++ [fs] :: fields.drop 1)
  ∧ (∀ (rs : Char) (field : Str),
      fieldRepetitions ⟨chars "MSH", 1, 2, 1, 0, 0⟩ rs field = [field]) :=
  ⟨rfl, rfl, rfl, rfl, rfl, rfl, fun _ _ => rfl, fun _ _ => rfl⟩

/-- C10: a syntactically well-formed path whose bracketed decimal index
exceeds the 64-bit int range parses with no error, and the failed numeric
conversion silently falls back to the default SegmentIndex 1. -/
theorem overflow_index_defaults_to_one :
    ParsePath (chars "PID[99999999999999999999]") =
      .ok ⟨chars "PID", 1, 0, 0, 0, 0⟩ := rfl

/-- C8: when Validate rejects a path, AbstractHL7 returns exactly that
validation error for every message, before a single message character is
inspected: the result is deterministic and message-independent. -/
theorem validation_failure_message_independent (p : HL7Path) (m1 m2 : Str) (e : Str)
    (h : p.Validate = some e) :
    AbstractHL7 m1 p = some (.error e) ∧ AbstractHL7 m2 p = some (.error e) := by
  constructor <;> · unfold AbstractHL7; simp only [h]

/-- Witness for C8: the path MSH[2].1 fails validation with "if Segment is
MSH, SegmentIndex must be 1", and two unrelated messages both receive that
same error. -/
theorem validation_failure_message_independent_witness :
    AbstractHL7 (chars "AAA") ⟨chars "MSH", 2, 1, 1, 0, 0⟩ =
        some (.error (chars "if Segment is MSH, SegmentIndex must be 1"))
  ∧ AbstractHL7 exampleHeaderMessage ⟨chars "MSH", 2, 1, 1, 0, 0⟩ =
        some (.error (chars "if Segment is MSH, SegmentIndex must be 1")) :=
  validation_failure_message_independent ⟨chars "MSH", 2, 1, 1, 0, 0⟩
    (chars "AAA") exampleHeaderMessage _ rfl

/-- C3 (code bug): the three line-terminator variants are not equivalent
segment boundaries.  Joining the same two terminator-free segment texts
MSH|^~\&|A and PID|1 with \n, \r and \r\n yields three different segment
lists ( \r leaves a trailing carriage return on the preceding segment, and
\r\n additionally inserts a spurious empty segment), and path MSH.3
extracts "A" from the \n-joined message but "A\r" from the other two. -/
theorem terminator_variants_diverge :
    AbstractHL7 (chars "MSH|^~\\&|A\nPID|1") ⟨chars "MSH", 1, 3, 1, 0, 0⟩ =
        some (.ok (chars "A"))
  ∧ AbstractHL7 (chars "MSH|^~\\&|A\rPID|1") ⟨chars "MSH", 1, 3, 1, 0, 0⟩ =
        some (.ok (chars "A\r"))
  ∧ AbstractHL7 (chars "MSH|^~\\&|A\r\nPID|1") ⟨chars "MSH", 1, 3, 1, 0, 0⟩ =
        some (.ok (chars "A\r"))
  ∧ splitByAnyOf (chars "MSH|^~\\&|A\nPID|1") [chars "\r\n", chars "\r", chars "\n"] =
        [chars "MSH|^~\\&|A", chars "PID|1"]
  ∧ splitByAnyOf (chars "MSH|^~\\&|A\rPID|1") [chars "\r\n", chars "\r", chars "\n"] =
        [chars "MSH|^~\\&|A\r", chars "PID|1"]
  ∧ splitByAnyOf (chars "MSH|^~\\&|A\r\nPID|1") [chars "\r\n", chars "\r", chars "\n"] =
        [chars "MSH|^~\\&|A\r", chars "", chars "PID|1"] :=
  ⟨rfl, rfl, rfl, rfl, rfl, rfl⟩

/-- Counterexample for C5: in the message MSH|^~\&XY the delimiter-block
positions 5 and 6 (X and Y) both differ from the field separator, yet for
path MSH.1 AbstractHL7 returns "|" with no error instead of the
message-structure error the claim requires: the MSH-field-1 shortcut runs
before the closing-pair check. -/
theorem closing_pair_after_shortcut_cex :
    AbstractHL7 (chars "MSH|^~\\&XY") ⟨chars "MSH", 1, 1, 1, 0, 0⟩ =
      some (.ok (chars "|")) := rfl

/-- C5 (amended): the MSH-field-1 shortcut is evaluated immediately after
reading the field separator and before every remaining separator check,
including the closing-pair constraint.  For a validated non-zero path on a
message passing the MSH and length checks with delimiter block
[f, c, r, e, s, x5, x6]: if the path addresses MSH field 1 the result is
the field separator with no error regardless of x5 and x6; otherwise, if
c, r, e, s each differ from f and both x5 and x6 differ from f, the result
is the "unexpected extra separators" error. -/
theorem closing_pair_checked_after_shortcut :
    (∀ (m : Str) (p : HL7Path) (f c r e s x5 x6 : Char),
      p.Validate = none → p ≠ HL7Path.zero →
      ¬ (m.length < 3 ∨ m.take 3 ≠ chars "MSH") → ¬ (m.length < 10) →
      (m.drop 3).take 7 = [f, c, r, e, s, x5, x6] →
      p.Segment = chars "MSH" ∧ p.Field = 1 →
      AbstractHL7 m p = some (.ok [f]))
  ∧ (∀ (m : Str) (p : HL7Path) (f c r e s x5 x6 : Char),
      p.Validate = none → p ≠ HL7Path.zero →
      ¬ (m.length < 3 ∨ m.take 3 ≠ chars "MSH") → ¬ (m.length < 10) →
      (m.drop 3).take 7 = [f, c, r, e, s, x5, x6] →
      ¬ (p.Segment = chars "MSH" ∧ p.Field = 1) →
      c ≠ f → r ≠ f → e ≠ f → s ≠ f → x5 ≠ f → x6 ≠ f →
      AbstractHL7 m p = some (.error (chars "unexpected extra separators"))) := by
  constructor
  · intro m p f c r e s x5 x6 hval hz hm3 hm10 hseps h1
    unfold AbstractHL7
    simp only [hval]
    rw [if_neg hz, if_neg hm3, if_neg hm10]
    simp only [hseps]
    rw [if_pos h1]
  · intro m p f c r e s x5 x6 hval hz hm3 hm10 hseps h1 hc hr he hs hx5 hx6
    unfold AbstractHL7
    simp only [hval]
    rw [if_neg hz, if_neg hm3, if_neg hm10]
    simp only [hseps]
    rw [if_neg h1, if_neg hc, if_neg hr, if_neg he, if_neg hs, if_pos ⟨hx5, hx6⟩]

/-- Witness for C5 (amended): on MSH|^~\&XY, whose closing pair XY contains
no field separator, path MSH.1 still yields "|" with no error, while a
PID-addressed path receives the "unexpected extra separators" error. -/
theorem closing_pair_checked_after_shortcut_witness :
    AbstractHL7 (chars "MSH|^~\\&XY") ⟨chars "MSH", 1, 1, 1, 0, 0⟩ =
        some (.ok [ '|' ])
  ∧ AbstractHL7 (chars "MSH|^~\\&XY") ⟨chars "PID", 1, 0, 0, 0, 0⟩ =
        some (.error (chars "unexpected extra separators")) :=
  ⟨closing_pair_checked_after_shortcut.1 (chars "MSH|^~\\&XY")
      ⟨chars "MSH", 1, 1, 1, 0, 0⟩ '|' '^' '~' '\\' '&' 'X' 'Y'
      rfl (by decide) (by decide) (by decide) rfl (by decide),
   closing_pair_checked_after_shortcut.2 (chars "MSH|^~\\&XY")
      ⟨chars "PID", 1, 0, 0, 0, 0⟩ '|' '^' '~' '\\' '&' 'X' 'Y'
      rfl (by decide) (by decide) (by decide) rfl (by decide)
      (by decide) (by decide) (by decide) (by decide) (by decide) (by decide)⟩

/-- Counterexample for C6: the input 1AB-2 has a segment token with a
non-letter first character, yet ParsePath reports the generic
"invalid path format" error, not the distinct segment-name message. -/
theorem segment_shape_generic_cex :
    ParsePath (chars "1AB-2") = .error (chars "invalid path format") := rfl

/-- C6 (amended): a non-empty input whose segment token violates the
segment-name shape fails the anchored regular expression itself, so
ParsePath reports the generic "invalid path format" error for it; the
distinct messages of parseSegmentNameOrError are unreachable through
ParsePath, because every segment capture produced by a successful regex
match already satisfies the segment-name shape. -/
theorem segment_shape_generic :
    (∀ (s : Str) (caps : PathCaps), regexMatch s = some caps →
      parseSegmentNameOrError caps.segment = .ok caps.segment)
  ∧ ParsePath (chars "1AB-2") = .error (chars "invalid path format")
  ∧ ParsePath (chars "PIDX") = .error (chars "invalid path format")
  ∧ ParsePath (chars "PV_") = .error (chars "invalid path format") := by
  refine ⟨?_, rfl, rfl, rfl⟩
  intro s caps h
  rcases s with _ | ⟨c0, s1⟩
  · simp [regexMatch] at h
  rcases s1 with _ | ⟨c1, s2⟩
  · simp [regexMatch] at h
  rcases s2 with _ | ⟨c2, rest⟩
  · simp [regexMatch] at h
  simp only [regexMatch] at h
  by_cases hg : (isUpper c0 && isUpperOrDigit c1 && isUpperOrDigit c2) = true
  · rw [if_pos hg] at h
    rcases hma : matchAfterSegment rest with _ | ⟨si, f, ri, co, su⟩
    · rw [hma] at h; simp at h
    · rw [hma] at h
      simp only [Option.some.injEq] at h
      subst h
      simp only [Bool.and_eq_true] at hg
      obtain ⟨⟨h0, h1⟩, h2⟩ := hg
      simp [parseSegmentNameOrError, segNameCheckRest, h0, h1, h2]
  · rw [if_neg hg] at h
    simp at h

/-- Witness for C6 (amended): the regex accepts the token PID and the
segment-name checker accepts the resulting capture. -/
theorem segment_shape_generic_witness :
    parseSegmentNameOrError
        (PathCaps.segment ⟨chars "PID", [], [], [], [], []⟩) =
      .ok (PathCaps.segment ⟨chars "PID", [], [], [], [], []⟩) :=
  segment_shape_generic.1 (chars "PID") ⟨chars "PID", [], [], [], [], []⟩ rfl

/-- C7: segment selection is prefix matching with a running count: a
segment matches path.Segment exactly when the 3-character name is a prefix
of its text (so a segment beginning PIDX matches PID), and the chosen
target is the SegmentIndex-th matching segment in original order — the
element at position SegmentIndex - 1 of the prefix-filtered segment list. -/
theorem segment_selection_prefix_count (p : HL7Path) (fs cs rs ss : Char)
    (segs : List Str) (h : 1 ≤ p.SegmentIndex) :
    scanSegments p fs cs rs ss 0 segs =
      (match (segs.filter p.Segment.isPrefixOf).get? (p.SegmentIndex - 1).toNat with
       | none => some (.ok [])
       | some sg => extractFromSegment p fs cs rs ss sg) := by
  have hx := scan_nth p fs cs rs ss segs 0 (by omega)
  have e : p.SegmentIndex - 0 - 1 = p.SegmentIndex - 1 := by ring
  rw [hx, e]

/-- Witness for C7: a segment whose text begins PIDX is the first match for
segment name PID. -/
theorem segment_selection_prefix_count_witness :
    scanSegments ⟨chars "PID", 1, 0, 0, 0, 0⟩ '|' '^' '~' '&' 0
        [chars "PIDX|a", chars "PID|b"] =
      (match ([chars "PIDX|a", chars "PID|b"].filter
          (List.isPrefixOf (chars "PID"))).get? ((1 : Int) - 1).toNat with
       | none => some (.ok [])
       | some sg => extractFromSegment ⟨chars "PID", 1, 0, 0, 0, 0⟩ '|' '^' '~' '&' sg) :=
  segment_selection_prefix_count ⟨chars "PID", 1, 0, 0, 0, 0⟩ '|' '^' '~' '&'
    [chars "PIDX|a", chars "PID|b"] (by decide)

/-- C1: for a validated path, whenever the addressed data is absent the
result is the empty string with no error: (i) the segment scan completing
without the match count reaching SegmentIndex, (ii) Field at or past the end
of the (MSH-adjusted) field list, (iii) RepetitionIndex past the repetition
list, (iv) Component past the component list, (v) Subcomponent past the
subcomponent list, and (vi) the same segment-not-found outcome stated on
AbstractHL7 itself for any message passing the header checks. -/
theorem absent_address_empty_result :
    (∀ (p : HL7Path) (fs cs rs ss : Char) (segs : List Str),
      p.Validate = none →
      (p.SegmentIndex ≤ 0 ∨
        ((segs.filter p.Segment.isPrefixOf).length : Int) < p.SegmentIndex) →
      scanSegments p fs cs rs ss 0 segs = some (.ok []))
  ∧ (∀ (p : HL7Path) (fs cs rs ss : Char) (seg : Str),
      p.Validate = none → p.Field ≠ 0 →
      ((mshFieldAdjust p fs (splitOnChar fs seg)).length : Int) ≤ p.Field →
      extractFromSegment p fs cs rs ss seg = some (.ok []))
  ∧ (∀ (p : HL7Path) (fs cs rs ss : Char) (seg field : Str),
      p.Validate = none → p.Field ≠ 0 →
      ¬ ((mshFieldAdjust p fs (splitOnChar fs seg)).length : Int) ≤ p.Field →
      goIndex (mshFieldAdjust p fs (splitOnChar fs seg)) p.Field = some field →
      ((fieldRepetitions p rs field).length : Int) < p.RepetitionIndex →
      extractFromSegment p fs cs rs ss seg = some (.ok []))
  ∧ (∀ (p : HL7Path) (fs cs rs ss : Char) (seg field repetition : Str),
      p.Validate = none → p.Field ≠ 0 →
      ¬ ((mshFieldAdjust p fs (splitOnChar fs seg)).length : Int) ≤ p.Field →
      goIndex (mshFieldAdjust p fs (splitOnChar fs seg)) p.Field = some field →
      ¬ ((fieldRepetitions p rs field).length : Int) < p.RepetitionIndex →
      goIndex (fieldRepetitions p rs field) (p.RepetitionIndex - 1) = some repetition →
      p.Component ≠ 0 →
      ((splitOnChar cs repetition).length : Int) < p.Component →
      extractFromSegment p fs cs rs ss seg = some (.ok []))
  ∧ (∀ (p : HL7Path) (fs cs rs ss : Char) (seg field repetition component : Str),
      p.Validate = none → p.Field ≠ 0 →
      ¬ ((mshFieldAdjust p fs (splitOnChar fs seg)).length : Int) ≤ p.Field →
      goIndex (mshFieldAdjust p fs (splitOnChar fs seg)) p.Field = some field →
      ¬ ((fieldRepetitions p rs field).length : Int) < p.RepetitionIndex →
      goIndex (fieldRepetitions p rs field) (p.RepetitionIndex - 1) = some repetition →
      p.Component ≠ 0 →
      ¬ ((splitOnChar cs repetition).length : Int) < p.Component →
      goIndex (splitOnChar cs repetition) (p.Component - 1) = some component →
      p.Subcomponent ≠ 0 →
      ((splitOnChar ss component).length : Int) < p.Subcomponent →
      extractFromSegment p fs cs rs ss seg = some (.ok []))
  ∧ (∀ (m : Str) (p : HL7Path) (f c r e s x5 x6 : Char),
      p.Validate = none → p ≠ HL7Path.zero →
      ¬ (m.length < 3 ∨ m.take 3 ≠ chars "MSH") → ¬ (m.length < 10) →
      (m.drop 3).take 7 = [f, c, r, e, s, x5, x6] →
      ¬ (p.Segment = chars "MSH" ∧ p.Field = 1) →
      c ≠ f → r ≠ f → e ≠ f → s ≠ f → ¬ (x5 ≠ f ∧ x6 ≠ f) →
      hasDup [f, c, r, e, s] = false →
      (p.SegmentIndex ≤ 0 ∨
        (((splitByAnyOf m [chars "\r\n", chars "\r", chars "\n"]).filter
            p.Segment.isPrefixOf).length : Int) < p.SegmentIndex) →
      AbstractHL7 m p = some (.ok [])) := by
  refine ⟨?_, ?_, ?_, ?_, ?_, ?_⟩
  · intro p fs cs rs ss segs _ h
    apply scan_miss
    rcases h with h | h
    · left; exact h
    · right; omega
  · intro p fs cs rs ss seg _ hF0 hlen
    unfold extractFromSegment
    rw [if_neg hF0, if_pos hlen]
  · intro p fs cs rs ss seg field _ hF0 hlen hfield hrlen
    unfold extractFromSegment
    rw [if_neg hF0, if_neg hlen]
    simp only [hfield]
    rw [if_pos hrlen]
  · intro p fs cs rs ss seg field repetition _ hF0 hlen hfield hrlen hrep hC0 hclen
    unfold extractFromSegment
    rw [if_neg hF0, if_neg hlen]
    simp only [hfield]
    rw [if_neg hrlen]
    simp only [hrep]
    rw [if_neg hC0, if_pos hclen]
  · intro p fs cs rs ss seg field repetition component _ hF0 hlen hfield hrlen hrep hC0
      hclen hcomp hS0 hslen
    unfold extractFromSegment
    rw [if_neg hF0, if_neg hlen]
    simp only [hfield]
    rw [if_neg hrlen]
    simp only [hrep]
    rw [if_neg hC0, if_neg hclen]
    simp only [hcomp]
    rw [if_neg hS0, if_pos hslen]
  · intro m p f c r e s x5 x6 hval hz hm3 hm10 hseps h6 hc hr he hs hx hdup hmiss
    unfold AbstractHL7
    simp only [hval]
    rw [if_neg hz, if_neg hm3, if_neg hm10]
    simp only [hseps]
    rw [if_neg h6, if_neg hc, if_neg hr, if_neg he, if_neg hs, if_neg hx,
      if_neg (by simp [hdup])]
    apply scan_miss
    rcases hmiss with h | h
    · left; exact h
    · right; omega

/-- Witness for C1: a message with no PID segment yields "" with no error
for path PID, and a subcomponent index past the end of the subcomponent
list yields "" with no error in the extraction body. -/
theorem absent_address_empty_result_witness :
    AbstractHL7 (chars "MSH|^~\\&|A") ⟨chars "PID", 1, 0, 0, 0, 0⟩ = some (.ok [])
  ∧ extractFromSegment ⟨chars "PID", 1, 1, 1, 1, 2⟩ '|' '^' '~' '&' (chars "PID|a") =
      some (.ok []) :=
  ⟨absent_address_empty_result.2.2.2.2.2 (chars "MSH|^~\\&|A")
      ⟨chars "PID", 1, 0, 0, 0, 0⟩ '|' '^' '~' '\\' '&' '|' 'A'
      rfl (by decide) (by decide) (by decide) rfl (by decide)
      (by decide) (by decide) (by decide) (by decide) (by decide) (by decide)
      (by decide),
   absent_address_empty_result.2.2.2.2.1 ⟨chars "PID", 1, 1, 1, 1, 2⟩
      '|' '^' '~' '&' (chars "PID|a") (chars "a") (chars "a") (chars "a")
      rfl (by decide) (by decide) rfl (by decide) rfl (by decide) (by decide)
      rfl (by decide) (by decide)⟩

/-- C9: for every message and every path whose five integer fields are
non-negative and which Validate accepts, AbstractHL7 performs no
out-of-range indexing and always returns a (string, error) pair — the
panic case none is unreachable; and the non-negativity hypothesis is
load-bearing: a path with RepetitionIndex -1 also passes Validate, yet on a
message holding the addressed field AbstractHL7 reaches a negative index
and panics. -/
theorem abstract_total_on_validated :
    (∀ (m : Str) (p : HL7Path),
        0 ≤ p.SegmentIndex → 0 ≤ p.Field → 0 ≤ p.RepetitionIndex →
        0 ≤ p.Component → 0 ≤ p.Subcomponent → p.Validate = none →
        AbstractHL7 m p ≠ none)
  ∧ HL7Path.Validate ⟨chars "PID", 1, 2, -1, 0, 0⟩ = none
  ∧ AbstractHL7 (chars "MSH|^~\\&|X\rPID|a|b") ⟨chars "PID", 1, 2, -1, 0, 0⟩ = none := by
  refine ⟨?_, rfl, rfl⟩
  intro m p hSI hF hR hC hS hval
  have hFR : p.Field ≠ 0 → p.RepetitionIndex ≠ 0 := Validate_none_rep p hval
  unfold AbstractHL7
  simp only [hval]
  by_cases hz : p = HL7Path.zero
  · rw [if_pos hz]; simp
  rw [if_neg hz]
  by_cases hm3 : m.length < 3 ∨ m.take 3 ≠ chars "MSH"
  · rw [if_pos hm3]; simp
  rw [if_neg hm3]
  by_cases hm10 : m.length < 10
  · rw [if_pos hm10]; simp
  rw [if_neg hm10]
  obtain ⟨a, b, c, d, e, f, g, hseps⟩ :=
    exists_seven ((m.drop 3).take 7) (by
      simp only [List.length_take, List.length_drop]
      omega)
  simp only [hseps]
  by_cases h1 : p.Segment = chars "MSH" ∧ p.Field = 1
  · rw [if_pos h1]; simp
  rw [if_neg h1]
  by_cases h2 : b = a
  · rw [if_pos h2]; simp
  rw [if_neg h2]
  by_cases h3 : c = a
  · rw [if_pos h3]; simp
  rw [if_neg h3]
  by_cases h4 : d = a
  · rw [if_pos h4]; simp
  rw [if_neg h4]
  by_cases h5 : e = a
  · rw [if_pos h5]; simp
  rw [if_neg h5]
  by_cases h6 : f ≠ a ∧ g ≠ a
  · rw [if_pos h6]; simp
  rw [if_neg h6]
  by_cases h7 : hasDup [a, b, c, d, e] = true
  · rw [if_pos h7]; simp
  rw [if_neg h7]
  exact scan_isSome p a b c e hF hR hC hS hFR _ 0

/-- Witness for C9: a concrete validated non-negative path on the example
header message returns a result. -/
theorem abstract_total_on_validated_witness :
    AbstractHL7 exampleHeaderMessage ⟨chars "MSH", 1, 3, 1, 0, 0⟩ ≠ none :=
  abstract_total_on_validated.1 exampleHeaderMessage ⟨chars "MSH", 1, 3, 1, 0, 0⟩
    (by decide) (by decide) (by decide) (by decide) (by decide) rfl
